import Mathlib

/-!
Shallow embedding of the `proteinogenic` crate (`src/lib.rs`): amino-acid
residues, cross-links, the cross-link registry, and the traversal that emits
a stream of graph-emission instructions to the external follower.

The follower (`purr::walk::Follower`) is modelled as an accumulated list of
`Instruction`s: `root`, `extend`, `join` (open-or-close a ring marker) and
`pop` (retreat).  Fallible Rust code returning `Result` is modelled with an
`Option Error` component; a Rust panic (the `unwrap` in `cross_link`) is
modelled as the outer `Option` being `none`.
-/

namespace Proteinogenic

/-- Chemical elements used by the emission table (`purr::feature::Element` /
`Aliphatic` / `Aromatic`, restricted to the members this crate emits). -/
inductive Element where
  | C
  | N
  | O
  | S
  | Se
deriving DecidableEq

/-- Stereo descriptors used by the emission table
(`purr::feature::Configuration`, restricted to the members this crate emits). -/
inductive Configuration where
  | TH1
  | TH2
deriving DecidableEq

/-- `purr::feature::AtomKind`, restricted to the shapes this crate emits.
Bracket fields follow the source: symbol, isotope, configuration, hcount,
charge, map. -/
inductive AtomKind where
  | aliphatic (symbol : Element)
  | aromatic (symbol : Element)
  | bracket (symbol : Element) (isotope : Option Nat)
      (configuration : Option Configuration) (hcount : Option Nat)
      (charge : Option Int) (map : Option Nat)
deriving DecidableEq

/-- `purr::feature::BondKind`, restricted to the members this crate emits. -/
inductive BondKind where
  | elided
  | single
  | double
  | up
  | down
deriving DecidableEq

/-- One call on the graph-emission follower.  Ring-closure markers
(`purr::feature::Rnum`) are modelled as natural numbers. -/
inductive Instruction where
  | root (a : AtomKind)
  | extend (b : BondKind) (a : AtomKind)
  | join (b : BondKind) (rnum : Nat)
  | pop (n : Nat)
deriving DecidableEq

/-- `AminoAcid` from `src/lib.rs`. -/
inductive AminoAcid where
  | Arg | His | Lys | Asp | Glu | Ser | Thr | Asn | Gln | Gly | Pro | Cys
  | Sec | Ala | Val | Ile | Leu | Met | Phe | Tyr | Trp | Pyl | Dha | Dhb
deriving DecidableEq

/-- `CrossLink` from `src/lib.rs`; positions are 1-based residue positions
(`u16` in the source, modelled as `Nat`). -/
inductive CrossLink where
  | Cystine (a b : Nat)
  | Lan (a b : Nat)
  | MeLan (a b : Nat)
deriving DecidableEq

/-- The two endpoint positions of a cross-link, in declaration order
(the source destructures `Cystine(i, j) | Lan(i, j) | MeLan(i, j)`). -/
def CrossLink.positions : CrossLink → Nat × Nat
  | .Cystine a b => (a, b)
  | .Lan a b => (a, b)
  | .MeLan a b => (a, b)

/-- `Cyclization` from `src/lib.rs`. -/
inductive Cyclization where
  | None
  | HeadToTail
deriving DecidableEq

/-- `Error` from `src/lib.rs`. -/
inductive Error where
  | InvalidCrossLink (position : Nat) (aa : AminoAcid) (cl : CrossLink)
  | DuplicateCrossLink (position : Nat)
  | TooManyCrossLinks
deriving DecidableEq

/-- The cross-link registry: `HashMap<u16, (Rnum, CrossLink)>` modelled as an
association list with unique keys (position to (marker, cross-link)). -/
abbrev Registry := List (Nat × (Nat × CrossLink))

/-- `HashMap::get`: the value stored at a key, if any. -/
def lookupCL : Registry → Nat → Option (Nat × CrossLink)
  | [], _ => none
  | (k, v) :: rest, i => if k = i then some v else lookupCL rest i

/-- `HashMap::insert`: stores `v` at key `k`, returning the updated map and
the previous value at `k` (which is replaced) if there was one.  A fresh key
is appended at the end, so insertion order is preserved for fresh keys. -/
def insertCL : Registry → Nat → Nat × CrossLink → Registry × Option (Nat × CrossLink)
  | [], k, v => ([(k, v)], none)
  | (k1, v1) :: rest, k, v =>
    if k1 = k then ((k, v) :: rest, some v1)
    else
      let r := insertCL rest k v
      ((k1, v1) :: r.1, r.2)

/-- Modelled from the spec: `purr::feature::Rnum` (an external dependency,
not part of this repository) covers the textual notation's ring-closure
marker space, SMILES markers 0 through 99; `Rnum::try_from` fails for any
larger number. -/
def rnumTryFrom (n : Nat) : Option Nat :=
  if n < 100 then some n else none

/-- `Protein` from `src/lib.rs`, with the sequence fixed to a list. -/
structure Protein where
  cyclization : Cyclization
  crossLinks : Registry
  crossLinkNum : Nat
  sequence : List AminoAcid
deriving DecidableEq

/-- `Protein::new`. -/
def Protein.new (sequence : List AminoAcid) : Protein :=
  { cyclization := Cyclization.None
    crossLinks := []
    crossLinkNum := 3  -- R0 is used for cyclization, R1 and R2 in residues
    sequence := sequence }

/-- `Protein::cross_link`.  The source first computes
`Rnum::try_from(self.cross_link_num).unwrap()`: the outer `Option` is `none`
exactly when that `unwrap` panics.  Otherwise the result carries the mutated
protein together with `some` error (`DuplicateCrossLink`) or `none` on
success; the counter is only incremented on success (`u16` arithmetic). -/
def Protein.crossLink (p : Protein) (cl : CrossLink) : Option (Protein × Option Error) :=
  match rnumTryFrom p.crossLinkNum with
  | none => none
  | some rnum =>
    match cl with
    | CrossLink.Cystine i j | CrossLink.Lan i j | CrossLink.MeLan i j =>
      let val := (rnum, cl)
      let r1 := insertCL p.crossLinks i val
      match r1.2 with
      | some _ => some ({ p with crossLinks := r1.1 }, some (Error.DuplicateCrossLink i))
      | none =>
        let r2 := insertCL r1.1 j val
        match r2.2 with
        | some _ => some ({ p with crossLinks := r2.1 }, some (Error.DuplicateCrossLink j))
        | none =>
          some ({ p with
                    crossLinks := r2.1
                    crossLinkNum := (p.crossLinkNum + 1) % 65536 }, none)

/-- The `CARBON_TH2` constant of `Protein::visit_residue`. -/
def CARBON_TH2 : AtomKind :=
  AtomKind.bracket Element.C none (some Configuration.TH2) (some 1) none none

/-- The `CARBON_TH1` constant of `Protein::visit_residue`. -/
def CARBON_TH1 : AtomKind :=
  AtomKind.bracket Element.C none (some Configuration.TH1) (some 1) none none

/-- The bracketed selenium atom emitted by the `Sec` arm. -/
def SELENIUM : AtomKind :=
  AtomKind.bracket Element.Se none none none none none

/-- The big per-residue `match` of `Protein::visit_residue`: the alpha carbon
and side chain instructions for one residue (everything between the
invalid-cross-link guard and the final beta-carbon emission).  Only the `Thr`
arm can fail; `Cys` and `Thr` consult the registry. -/
def residueArm (aa : AminoAcid) (index : Nat) (crossLinks : Registry) :
    List Instruction × Option Error :=
  match aa with
  | .Dhb =>
    ([.extend .up (.aliphatic .C),
      .extend .double (.aliphatic .C),
      .extend .down (.aliphatic .C),
      .pop 2], none)
  | .Dha =>
    ([.extend .elided (.aliphatic .C),
      .extend .double (.aliphatic .C),
      .pop 1], none)
  | .Pyl =>
    ([.extend .elided CARBON_TH2,
      .extend .elided (.aliphatic .C),
      .extend .elided (.aliphatic .C),
      .extend .elided (.aliphatic .C),
      .extend .elided (.aliphatic .C),
      .extend .elided (.aliphatic .N),
      .extend .elided (.aliphatic .C),
      .extend .double (.aliphatic .O),
      .pop 1,
      .extend .elided CARBON_TH1,
      .join .elided 1,
      .extend .elided CARBON_TH1,
      .extend .elided (.aliphatic .C),
      .pop 1,
      .extend .elided (.aliphatic .C),
      .extend .elided (.aliphatic .C),
      .extend .double (.aliphatic .N),
      .join .elided 1,
      .pop 11], none)
  | .Gly =>
    ([.extend .elided (.aliphatic .C)], none)
  | .Ala =>
    ([.extend .elided CARBON_TH2,
      .extend .elided (.aliphatic .C),
      .pop 1], none)
  | .Pro =>
    ([.join .elided 1,
      .extend .elided (.aliphatic .C),
      .extend .elided (.aliphatic .C),
      .extend .elided (.aliphatic .C),
      .extend .elided CARBON_TH1,
      .join .elided 1], none)
  | .Val =>
    ([.extend .elided CARBON_TH2,
      .extend .elided (.aliphatic .C),
      .extend .elided (.aliphatic .C),
      .pop 1,
      .extend .elided (.aliphatic .C),
      .pop 2], none)
  | .Leu =>
    ([.extend .elided CARBON_TH2,
      .extend .elided (.aliphatic .C),
      .extend .elided (.aliphatic .C),
      .extend .elided (.aliphatic .C),
      .pop 1,
      .extend .elided (.aliphatic .C),
      .pop 3], none)
  | .Met =>
    ([.extend .elided CARBON_TH2,
      .extend .elided (.aliphatic .C),
      .extend .elided (.aliphatic .C),
      .extend .elided (.aliphatic .S),
      .extend .elided (.aliphatic .C),
      .pop 4], none)
  | .Phe =>
    ([.extend .elided CARBON_TH2,
      .extend .elided (.aliphatic .C),
      .extend .elided (.aromatic .C),
      .join .elided 1,
      .extend .elided (.aromatic .C),
      .extend .elided (.aromatic .C),
      .extend .elided (.aromatic .C),
      .extend .elided (.aromatic .C),
      .extend .elided (.aromatic .C),
      .join .elided 1,
      .pop 7], none)
  | .Tyr =>
    ([.extend .elided CARBON_TH2,
      .extend .elided (.aliphatic .C),
      .extend .elided (.aromatic .C),
      .join .elided 1,
      .extend .elided (.aromatic .C),
      .extend .elided (.aromatic .C),
      .extend .elided (.aromatic .C),
      .extend .elided (.aliphatic .O),
      .pop 1,
      .extend .elided (.aromatic .C),
      .extend .elided (.aromatic .C),
      .join .elided 1,
      .pop 7], none)
  | .Cys =>
    let pre : List Instruction :=
      [.extend .elided CARBON_TH2,
       .extend .elided (.aliphatic .C)]
    match lookupCL crossLinks index with
    | none =>
      (pre ++ [.extend .elided (.aliphatic .S), .pop 2], none)
    | some (rnum, CrossLink.Cystine _ _) =>
      (pre ++ [.extend .elided (.aliphatic .S), .join .elided rnum, .pop 2], none)
    | some (rnum, CrossLink.Lan i _) =>
      if i = index then
        (pre ++ [.extend .elided (.aliphatic .S), .join .elided rnum, .pop 2], none)
      else
        (pre ++ [.join .elided rnum, .pop 1], none)
    | some (rnum, CrossLink.MeLan _ _) =>
      (pre ++ [.extend .elided (.aliphatic .S), .join .elided rnum, .pop 2], none)
  | .Ser =>
    ([.extend .elided CARBON_TH2,
      .extend .elided (.aliphatic .C),
      .extend .elided (.aliphatic .O),
      .pop 2], none)
  | .Sec =>
    ([.extend .elided CARBON_TH2,
      .extend .elided (.aliphatic .C),
      .extend .elided SELENIUM,
      .pop 2], none)
  | .Thr =>
    let pre : List Instruction :=
      [.extend .elided CARBON_TH2,
       .extend .elided CARBON_TH2]
    match lookupCL crossLinks index with
    | none =>
      (pre ++ [.extend .elided (.aliphatic .C), .pop 1,
               .extend .elided (.aliphatic .O), .pop 2], none)
    | some (rnum, CrossLink.MeLan _ _) =>
      (pre ++ [.join .elided rnum, .extend .elided (.aliphatic .C), .pop 2], none)
    | some (_, other) =>
      (pre, some (Error.InvalidCrossLink index .Thr other))
  | .Asn =>
    ([.extend .elided CARBON_TH2,
      .extend .elided (.aliphatic .C),
      .extend .elided (.aliphatic .C),
      .extend .double (.aliphatic .O),
      .pop 1,
      .extend .elided (.aliphatic .N),
      .pop 3], none)
  | .Gln =>
    ([.extend .elided CARBON_TH2,
      .extend .elided (.aliphatic .C),
      .extend .elided (.aliphatic .C),
      .extend .elided (.aliphatic .C),
      .extend .double (.aliphatic .O),
      .pop 1,
      .extend .elided (.aliphatic .N),
      .pop 4], none)
  | .Arg =>
    ([.extend .elided CARBON_TH2,
      .extend .elided (.aliphatic .C),
      .extend .elided (.aliphatic .C),
      .extend .elided (.aliphatic .C),
      .extend .elided (.aliphatic .N),
      .extend .elided (.aliphatic .C),
      .extend .double (.aliphatic .N),
      .pop 1,
      .extend .elided (.aliphatic .N),
      .pop 6], none)
  | .Lys =>
    ([.extend .elided CARBON_TH2,
      .extend .elided (.aliphatic .C),
      .extend .elided (.aliphatic .C),
      .extend .elided (.aliphatic .C),
      .extend .elided (.aliphatic .C),
      .extend .elided (.aliphatic .N),
      .pop 5], none)
  | .His =>
    ([.extend .elided CARBON_TH2,
      .extend .elided (.aliphatic .C),
      .extend .elided (.aromatic .C),
      .join .elided 1,
      .extend .elided (.aromatic .C),
      .extend .elided (.aromatic .N),
      .extend .elided (.aromatic .C),
      .extend .elided (.aliphatic .N),
      .join .elided 1,
      .pop 6], none)
  | .Asp =>
    ([.extend .elided CARBON_TH2,
      .extend .elided (.aliphatic .C),
      .extend .elided (.aliphatic .C),
      .extend .double (.aliphatic .O),
      .pop 1,
      .extend .elided (.aliphatic .O),
      .pop 3], none)
  | .Glu =>
    ([.extend .elided CARBON_TH2,
      .extend .elided (.aliphatic .C),
      .extend .elided (.aliphatic .C),
      .extend .elided (.aliphatic .C),
      .extend .double (.aliphatic .O),
      .pop 1,
      .extend .elided (.aliphatic .O),
      .pop 4], none)
  | .Ile =>
    ([.extend .elided CARBON_TH2,
      .extend .elided CARBON_TH2,
      .extend .elided (.aliphatic .C),
      .pop 1,
      .extend .elided (.aliphatic .C),
      .extend .elided (.aliphatic .C),
      .pop 3], none)
  | .Trp =>
    ([.extend .elided CARBON_TH2,
      .extend .elided (.aliphatic .C),
      .extend .elided (.aromatic .C),
      .join .elided 1,
      .extend .elided (.aromatic .C),
      .extend .elided (.aromatic .N),
      .extend .elided (.aromatic .C),
      .join .elided 2,
      .extend .elided (.aromatic .C),
      .join .elided 1,
      .extend .elided (.aromatic .C),
      .extend .elided (.aromatic .C),
      .extend .elided (.aromatic .C),
      .extend .elided (.aromatic .C),
      .join .elided 2,
      .pop 10], none)

/-- The tail of `Protein::visit_residue`: on success the beta carbon is
emitted after the residue arm (`follower.extend(Elided, C); Ok(())`). -/
def visitResidueBody (aa : AminoAcid) (index : Nat) (crossLinks : Registry) :
    List Instruction × Option Error :=
  match residueArm aa index crossLinks with
  | (ins, some e) => (ins, some e)
  | (ins, none) => (ins ++ [.extend .elided (.aliphatic .C)], none)

/-- `Protein::visit_residue`: the guard rejecting a registered cross-link on
any residue other than threonine or cysteine, then the residue emission. -/
def visitResidue (aa : AminoAcid) (index : Nat) (crossLinks : Registry) :
    List Instruction × Option Error :=
  if aa ≠ AminoAcid.Thr ∧ aa ≠ AminoAcid.Cys then
    match lookupCL crossLinks index with
    | some (_, cl) => ([], some (Error.InvalidCrossLink index aa cl))
    | none => visitResidueBody aa index crossLinks
  else
    visitResidueBody aa index crossLinks

/-- The 1-based residue position passed to `visit_residue`: the source
computes `index as u16 + 1` from the 0-based enumeration index, in `u16`
arithmetic. -/
def pos16 (idx : Nat) : Nat :=
  (idx % 65536 + 1) % 65536

/-- The `while let` loop of `Protein::visit` over the residues after the
first one: each iteration emits the backbone nitrogen, the residue, then the
carbonyl oxygen and a retreat; an error aborts immediately.  `idx` is the
0-based enumeration index of the head of `rest`. -/
def visitRest (crossLinks : Registry) : List AminoAcid → Nat → List Instruction × Option Error
  | [], _ => ([], none)
  | aa :: rest, idx =>
    match visitResidue aa (pos16 idx) crossLinks with
    | (ins, some e) => (Instruction.extend .elided (.aliphatic .N) :: ins, some e)
    | (ins, none) =>
      match visitRest crossLinks rest (idx + 1) with
      | (ins2, e2) =>
        (Instruction.extend .elided (.aliphatic .N) :: ins ++
          [Instruction.extend .double (.aliphatic .O), Instruction.pop 1] ++ ins2, e2)

/-- `Protein::visit`: root nitrogen (plus marker 0 when head-to-tail), the
residues, then the C-terminus (marker 0 closure or the terminal oxygen). -/
def Protein.visit (p : Protein) : List Instruction × Option Error :=
  match p.sequence with
  | [] => ([], none)
  | aa :: rest =>
    let head := Instruction.root (.aliphatic .N) ::
      (if p.cyclization = Cyclization.HeadToTail then [Instruction.join .elided 0] else [])
    match visitResidue aa (pos16 0) p.crossLinks with
    | (ins, some e) => (head ++ ins, some e)
    | (ins, none) =>
      match visitRest p.crossLinks rest 1 with
      | (ins2, some e) =>
        (head ++ ins ++ [Instruction.extend .double (.aliphatic .O), Instruction.pop 1] ++
          ins2, some e)
      | (ins2, none) =>
        let fin := if p.cyclization = Cyclization.HeadToTail then
            [Instruction.join .elided 0]
          else
            [Instruction.extend .single (.aliphatic .O)]
        (head ++ ins ++ [Instruction.extend .double (.aliphatic .O), Instruction.pop 1] ++
          ins2 ++ fin, none)

/-- The free function `visit`. -/
def visit (sequence : List AminoAcid) : List Instruction × Option Error :=
  (Protein.new sequence).visit

/-- Modelled from the spec: the external graph-emission collaborator
(`purr::write::Writer`, not part of this repository) renders the instruction
stream into the textual notation; the spec fixes that an empty instruction
stream produces the empty string.  Each instruction is rendered to a token
and the tokens are concatenated in order. -/
def instructionToken : Instruction → String
  | .root a => atomToken a
  | .extend b a => bondToken b ++ atomToken a
  | .join b r => bondToken b ++ toString r
  | .pop _ => ")"
where
  bondToken : BondKind → String
    | .elided => ""
    | .single => "-"
    | .double => "="
    | .up => "/"
    | .down => "\\"
  atomToken : AtomKind → String
    | .aliphatic .C => "C"
    | .aliphatic .N => "N"
    | .aliphatic .O => "O"
    | .aliphatic .S => "S"
    | .aliphatic .Se => "[Se]"
    | .aromatic .C => "c"
    | .aromatic .N => "n"
    | .aromatic _ => "?"
    | .bracket _ _ _ _ _ _ => "[?]"

/-- Modelled from the spec: the produced artifact is a single textual string
(empty for an empty instruction stream). -/
def writeString (l : List Instruction) : String :=
  String.join (l.map instructionToken)

/-- The free function `smiles`: build a protein, walk it, render the stream;
an error from the walk is returned unchanged and the partial output is
discarded. -/
def smiles (sequence : List AminoAcid) : Except Error String :=
  match visit sequence with
  | (ins, none) => Except.ok (writeString ins)
  | (_, some e) => Except.error e

/-- Sequential registration of several cross-links (repeated
`Protein::cross_link` calls); stops at the first panic or error. -/
def crossLinkAll (p : Protein) : List CrossLink → Option (Protein × Option Error)
  | [] => some (p, none)
  | cl :: rest =>
    match p.crossLink cl with
    | none => none
    | some (p1, some e) => some (p1, some e)
    | some (p1, none) => crossLinkAll p1 rest

/-- The registry produced by successful registrations of `L` starting from
marker counter `c`: each cross-link contributes its two endpoints, keyed in
insertion order, both carrying the marker allocated for that cross-link. -/
def buildRegistry (c : Nat) : List CrossLink → Registry
  | [] => []
  | cl :: rest =>
    (cl.positions.1, (c, cl)) :: (cl.positions.2, (c, cl)) :: buildRegistry (c + 1) rest

/-- Number of `join` instructions carrying marker `m`. -/
def countJoin (m : Nat) : List Instruction → Nat
  | [] => 0
  | Instruction.join _ r :: rest => (if r = m then 1 else 0) + countJoin m rest
  | Instruction.root _ :: rest => countJoin m rest
  | Instruction.extend _ _ :: rest => countJoin m rest
  | Instruction.pop _ :: rest => countJoin m rest

/-- Indicator: the registry stores marker `m` at position `p`. -/
def hitInd (crossLinks : Registry) (m : Nat) (p : Nat) : Nat :=
  match lookupCL crossLinks p with
  | some (mk, _) => if mk = m then 1 else 0
  | none => 0

/-- Number of positions in `ps` at which the registry stores marker `m`. -/
def markerHits (crossLinks : Registry) (m : Nat) : List Nat → Nat
  | [] => 0
  | p :: ps => hitInd crossLinks m p + markerHits crossLinks m ps

/-- The residue positions consulted by a traversal of `n` residues whose
first residue has 0-based enumeration index `i`. -/
def posFrom : Nat → Nat → List Nat
  | 0, _ => []
  | n + 1, i => pos16 i :: posFrom n (i + 1)

/-- Whether an emitted atom carries a stereo descriptor. -/
def atomConfigured : AtomKind → Bool
  | .bracket _ _ (some _) _ _ _ => true
  | _ => false

/-- Whether an instruction emits a stereo-tagged atom. -/
def instrConfigured : Instruction → Bool
  | .root a => atomConfigured a
  | .extend _ a => atomConfigured a
  | _ => false

/-- Whether any instruction of the stream emits a stereo-tagged atom. -/
def hasConfig (l : List Instruction) : Bool :=
  l.any instrConfigured

/-- The keys (positions) of a registry are pairwise distinct. -/
def keysNodup (crossLinks : Registry) : Prop :=
  (crossLinks.map Prod.fst).Nodup

/-! ### Registry lemmas -/

theorem insertCL_snd : ∀ (m : Registry) (k : Nat) (v : Nat × CrossLink),
    (insertCL m k v).2 = lookupCL m k
  | [], _, _ => rfl
  | (k1, v1) :: rest, k, v => by
    simp only [insertCL, lookupCL]
    by_cases h : k1 = k
    · simp [h]
    · simp [h, insertCL_snd rest k v]

theorem lookupCL_insertCL_self : ∀ (m : Registry) (k : Nat) (v : Nat × CrossLink),
    lookupCL (insertCL m k v).1 k = some v
  | [], k, v => by simp [insertCL, lookupCL]
  | (k1, v1) :: rest, k, v => by
    simp only [insertCL]
    by_cases h : k1 = k
    · simp [h, lookupCL]
    · simp [h, lookupCL, lookupCL_insertCL_self rest k v]

theorem lookupCL_insertCL_ne : ∀ (m : Registry) (k k2 : Nat) (v : Nat × CrossLink),
    k2 ≠ k → lookupCL (insertCL m k v).1 k2 = lookupCL m k2
  | [], k, k2, v, h => by simp [insertCL, lookupCL, Ne.symm h]
  | (k1, v1) :: rest, k, k2, v, h => by
    simp only [insertCL]
    by_cases h1 : k1 = k
    · subst h1
      simp [lookupCL, Ne.symm h]
    · simp only [if_neg h1, lookupCL]
      by_cases h2 : k1 = k2
      · simp [h2]
      · simp [h2, lookupCL_insertCL_ne rest k k2 v h]

theorem insertCL_fresh : ∀ (m : Registry) (k : Nat) (v : Nat × CrossLink),
    lookupCL m k = none → (insertCL m k v).1 = m ++ [(k, v)]
  | [], k, v, _ => rfl
  | (k1, v1) :: rest, k, v, h => by
    simp only [lookupCL] at h
    by_cases hk : k1 = k
    · simp [hk] at h
    · simp only [insertCL, if_neg hk, List.cons_append, List.cons.injEq, true_and]
      exact insertCL_fresh rest k v (by simpa [hk] using h)

theorem lookupCL_append : ∀ (m m2 : Registry) (k : Nat),
    lookupCL (m ++ m2) k =
      (match lookupCL m k with
       | some v => some v
       | none => lookupCL m2 k)
  | [], m2, k => by simp [lookupCL]
  | (k1, v1) :: rest, m2, k => by
    simp only [List.cons_append, lookupCL]
    by_cases h : k1 = k
    · simp [h]
    · simp [h, lookupCL_append rest m2 k]

theorem lookupCL_mem : ∀ (m : Registry) (k : Nat) (v : Nat × CrossLink),
    lookupCL m k = some v → (k, v) ∈ m
  | [], k, v, h => by simp [lookupCL] at h
  | (k1, v1) :: rest, k, v, h => by
    simp only [lookupCL] at h
    by_cases hk : k1 = k
    · subst hk
      rw [if_pos rfl] at h
      injection h with h
      subst h
      exact List.mem_cons_self _ _
    · exact List.mem_cons_of_mem _ (lookupCL_mem rest k v (by rwa [if_neg hk] at h))

theorem lookupCL_eq_none : ∀ (m : Registry) (k : Nat),
    lookupCL m k = none ↔ k ∉ m.map Prod.fst
  | [], k => by simp [lookupCL]
  | (k1, v1) :: rest, k => by
    simp only [lookupCL, List.map_cons, List.mem_cons]
    by_cases hk : k1 = k
    · simp [hk]
    · simp [hk, Ne.symm hk, lookupCL_eq_none rest k]

theorem mem_lookupCL : ∀ (m : Registry) (k : Nat) (v : Nat × CrossLink),
    keysNodup m → (k, v) ∈ m → lookupCL m k = some v
  | [], k, v, _, hm => by simp at hm
  | (k1, v1) :: rest, k, v, hnd, hm => by
    simp only [keysNodup, List.map_cons, List.nodup_cons] at hnd
    rcases List.mem_cons.mp hm with h | h
    · injection h with h1 h2
      subst h1
      subst h2
      simp [lookupCL]
    · have hk : k1 ≠ k := by
        intro he
        exact hnd.1 (he ▸ (List.mem_map.mpr ⟨(k, v), h, rfl⟩))
      simp [lookupCL, hk, mem_lookupCL rest k v hnd.2 h]

/-! ### Cross-link registration lemmas -/

theorem crossLink_dup_first (p : Protein) (cl : CrossLink) (i j rnum : Nat)
    (w : Nat × CrossLink) (hpos : cl.positions = (i, j))
    (hr : rnumTryFrom p.crossLinkNum = some rnum)
    (hi : lookupCL p.crossLinks i = some w) :
    p.crossLink cl =
      some ({ p with crossLinks := (insertCL p.crossLinks i (rnum, cl)).1 },
            some (Error.DuplicateCrossLink i)) := by
  cases cl <;>
    simp only [CrossLink.positions, Prod.mk.injEq] at hpos <;>
    obtain ⟨rfl, rfl⟩ := hpos <;>
    simp [Protein.crossLink, hr, insertCL_snd, hi]

theorem crossLink_dup_second (p : Protein) (cl : CrossLink) (i j rnum : Nat)
    (w : Nat × CrossLink) (hpos : cl.positions = (i, j))
    (hr : rnumTryFrom p.crossLinkNum = some rnum)
    (hi : lookupCL p.crossLinks i = none)
    (hj : lookupCL (insertCL p.crossLinks i (rnum, cl)).1 j = some w) :
    p.crossLink cl =
      some ({ p with
                crossLinks := (insertCL (insertCL p.crossLinks i (rnum, cl)).1 j (rnum, cl)).1 },
            some (Error.DuplicateCrossLink j)) := by
  cases cl <;>
    simp only [CrossLink.positions, Prod.mk.injEq] at hpos <;>
    obtain ⟨rfl, rfl⟩ := hpos <;>
    simp [Protein.crossLink, hr, insertCL_snd, hi, hj]

theorem crossLink_ok (p : Protein) (cl : CrossLink) (i j rnum : Nat)
    (hpos : cl.positions = (i, j))
    (hr : rnumTryFrom p.crossLinkNum = some rnum)
    (hi : lookupCL p.crossLinks i = none)
    (hj : lookupCL (insertCL p.crossLinks i (rnum, cl)).1 j = none) :
    p.crossLink cl =
      some ({ p with
                crossLinks := (insertCL (insertCL p.crossLinks i (rnum, cl)).1 j (rnum, cl)).1
                crossLinkNum := (p.crossLinkNum + 1) % 65536 }, none) := by
  cases cl <;>
    simp only [CrossLink.positions, Prod.mk.injEq] at hpos <;>
    obtain ⟨rfl, rfl⟩ := hpos <;>
    simp [Protein.crossLink, hr, insertCL_snd, hi, hj]

/-! ### Per-residue emission lemmas -/

theorem residueArm_err_none (aa : AminoAcid) (index : Nat) (cls : Registry)
    (h : lookupCL cls index = none) : (residueArm aa index cls).2 = none := by
  cases aa <;> simp [residueArm, h]

theorem visitResidue_err_none (aa : AminoAcid) (index : Nat) (cls : Registry)
    (h : lookupCL cls index = none) : (visitResidue aa index cls).2 = none := by
  have hb : (visitResidueBody aa index cls).2 = none := by
    rcases ha : residueArm aa index cls with ⟨ins, e⟩
    have h2 := residueArm_err_none aa index cls h
    rw [ha] at h2
    simp only at h2
    subst h2
    simp [visitResidueBody, ha]
  unfold visitResidue
  split
  · rw [h]
    exact hb
  · exact hb

theorem visitResidue_guard (aa : AminoAcid) (index : Nat) (cls : Registry)
    (m : Nat) (cl : CrossLink) (h1 : aa ≠ AminoAcid.Thr) (h2 : aa ≠ AminoAcid.Cys)
    (h : lookupCL cls index = some (m, cl)) :
    visitResidue aa index cls = ([], some (Error.InvalidCrossLink index aa cl)) := by
  unfold visitResidue
  rw [if_pos ⟨h1, h2⟩, h]

theorem visitResidue_thr (index : Nat) (cls : Registry) :
    visitResidue AminoAcid.Thr index cls = visitResidueBody AminoAcid.Thr index cls := by
  unfold visitResidue
  rw [if_neg (by simp)]

theorem visitResidue_cys (index : Nat) (cls : Registry) :
    visitResidue AminoAcid.Cys index cls = visitResidueBody AminoAcid.Cys index cls := by
  unfold visitResidue
  rw [if_neg (by simp)]

theorem visitResidue_thr_err (index : Nat) (cls : Registry) (m : Nat) (cl : CrossLink)
    (h : lookupCL cls index = some (m, cl)) (hml : ∀ a b, cl ≠ CrossLink.MeLan a b) :
    visitResidue AminoAcid.Thr index cls =
      ([Instruction.extend .elided CARBON_TH2, Instruction.extend .elided CARBON_TH2],
       some (Error.InvalidCrossLink index AminoAcid.Thr cl)) := by
  rw [visitResidue_thr]
  rcases cl with ⟨a, b⟩ | ⟨a, b⟩ | ⟨a, b⟩
  · simp [visitResidueBody, residueArm, h]
  · simp [visitResidueBody, residueArm, h]
  · exact absurd rfl (hml a b)

theorem visitResidue_cys_lan_first (index : Nat) (cls : Registry) (rnum a b : Nat)
    (h : lookupCL cls index = some (rnum, CrossLink.Lan a b)) (ha : a = index) :
    visitResidue AminoAcid.Cys index cls =
      ([Instruction.extend .elided CARBON_TH2,
        Instruction.extend .elided (.aliphatic .C),
        Instruction.extend .elided (.aliphatic .S),
        Instruction.join .elided rnum,
        Instruction.pop 2,
        Instruction.extend .elided (.aliphatic .C)], none) := by
  rw [visitResidue_cys]
  simp [visitResidueBody, residueArm, h, ha]

theorem visitResidue_cys_lan_other (index : Nat) (cls : Registry) (rnum a b : Nat)
    (h : lookupCL cls index = some (rnum, CrossLink.Lan a b)) (ha : a ≠ index) :
    visitResidue AminoAcid.Cys index cls =
      ([Instruction.extend .elided CARBON_TH2,
        Instruction.extend .elided (.aliphatic .C),
        Instruction.join .elided rnum,
        Instruction.pop 1,
        Instruction.extend .elided (.aliphatic .C)], none) := by
  rw [visitResidue_cys]
  simp [visitResidueBody, residueArm, h, ha]

/-! ### Join-count accounting -/

theorem countJoin_append (m : Nat) : ∀ (l1 l2 : List Instruction),
    countJoin m (l1 ++ l2) = countJoin m l1 + countJoin m l2
  | [], l2 => by simp [countJoin]
  | i :: rest, l2 => by
    cases i <;> simp [countJoin, countJoin_append m rest l2, Nat.add_assoc]

theorem countJoin_visitResidue (aa : AminoAcid) (index : Nat) (cls : Registry) (m : Nat)
    (h1 : m ≠ 1) (h2 : m ≠ 2) :
    countJoin m (visitResidue aa index cls).1 ≤ hitInd cls m index ∧
    ((visitResidue aa index cls).2 = none →
      countJoin m (visitResidue aa index cls).1 = hitInd cls m index) := by
  have e1 : (1 = m) = False := by simp [Ne.symm h1]
  have e2 : (2 = m) = False := by simp [Ne.symm h2]
  rcases hl : lookupCL cls index with _ | ⟨mk, cl⟩
  · have hhit : hitInd cls m index = 0 := by simp [hitInd, hl]
    rw [hhit]
    cases aa <;>
      simp [visitResidue, visitResidueBody, residueArm, hl, countJoin, countJoin_append,
        e1, e2]
  · have hhit : hitInd cls m index = if mk = m then 1 else 0 := by simp [hitInd, hl]
    rw [hhit]
    cases aa
    case Cys =>
      rcases cl with ⟨a, b⟩ | ⟨a, b⟩ | ⟨a, b⟩
      · simp [visitResidue, visitResidueBody, residueArm, hl, countJoin, countJoin_append,
          e1, e2]
      · by_cases hab : a = index <;>
          simp [visitResidue, visitResidueBody, residueArm, hl, hab, countJoin,
            countJoin_append, e1, e2]
      · simp [visitResidue, visitResidueBody, residueArm, hl, countJoin, countJoin_append,
          e1, e2]
    case Thr =>
      rcases cl with ⟨a, b⟩ | ⟨a, b⟩ | ⟨a, b⟩ <;>
        simp [visitResidue, visitResidueBody, residueArm, hl, countJoin, countJoin_append,
          e1, e2]
    all_goals
      simp [visitResidue, visitResidueBody, residueArm, hl, countJoin, e1, e2]

theorem countJoin_visitRest (cls : Registry) (m : Nat) (h1 : m ≠ 1) (h2 : m ≠ 2) :
    ∀ (xs : List AminoAcid) (i : Nat),
      countJoin m (visitRest cls xs i).1 ≤ markerHits cls m (posFrom xs.length i) ∧
      ((visitRest cls xs i).2 = none →
        countJoin m (visitRest cls xs i).1 = markerHits cls m (posFrom xs.length i))
  | [], i => by simp [visitRest, posFrom, markerHits, countJoin]
  | aa :: rest, i => by
    have hres := countJoin_visitResidue aa (pos16 i) cls m h1 h2
    have ih := countJoin_visitRest cls m h1 h2 rest (i + 1)
    rcases hv : visitResidue aa (pos16 i) cls with ⟨ins, e⟩
    rw [hv] at hres
    simp only at hres
    rcases e with _ | e
    · rcases hr : visitRest cls rest (i + 1) with ⟨ins2, e2⟩
      rw [hr] at ih
      simp only at ih
      have heq := hres.2 rfl
      simp only [visitRest, hv, hr, List.length_cons, posFrom, markerHits, countJoin,
        List.cons_append, List.append_eq, List.append_assoc, countJoin_append]
      constructor
      · have h3 := ih.1
        omega
      · intro h3
        have h4 := ih.2 h3
        omega
    · simp only [visitRest, hv, List.length_cons, posFrom, markerHits, countJoin]
      constructor
      · have h3 := hres.1
        omega
      · intro h3
        simp at h3

theorem markerHits_all_zero (cls : Registry) (m : Nat)
    (h : ∀ k mk cl, lookupCL cls k = some (mk, cl) → mk ≠ m) :
    ∀ ps : List Nat, markerHits cls m ps = 0
  | [] => rfl
  | p :: ps => by
    have hp : hitInd cls m p = 0 := by
      unfold hitInd
      rcases hl : lookupCL cls p with _ | ⟨mk, cl⟩
      · rfl
      · simp [h p mk cl hl]
    simp [markerHits, hp, markerHits_all_zero cls m h ps]

/-! ### Traversal lemmas -/

theorem pos16_eq (i : Nat) (h : i + 1 < 65536) : pos16 i = i + 1 := by
  unfold pos16
  omega

theorem visit_success_shape (p : Protein) (aa : AminoAcid) (rest : List AminoAcid)
    (hseq : p.sequence = aa :: rest) (hs : (p.visit).2 = none) :
    ∃ ins ins2,
      visitResidue aa (pos16 0) p.crossLinks = (ins, none) ∧
      visitRest p.crossLinks rest 1 = (ins2, none) ∧
      p.visit =
        ((Instruction.root (.aliphatic .N) ::
          (if p.cyclization = Cyclization.HeadToTail then [Instruction.join .elided 0]
           else [])) ++
         ins ++ [Instruction.extend .double (.aliphatic .O), Instruction.pop 1] ++ ins2 ++
         (if p.cyclization = Cyclization.HeadToTail then [Instruction.join .elided 0]
          else [Instruction.extend .single (.aliphatic .O)]), none) := by
  rcases hv : visitResidue aa (pos16 0) p.crossLinks with ⟨ins, e⟩
  rcases e with _ | e
  · rcases hr : visitRest p.crossLinks rest 1 with ⟨ins2, e2⟩
    rcases e2 with _ | e2
    · refine ⟨ins, ins2, rfl, rfl, ?_⟩
      simp only [Protein.visit, hseq, hv, hr]
    · exact absurd hs (by simp [Protein.visit, hseq, hv, hr])
  · exact absurd hs (by simp [Protein.visit, hseq, hv])

theorem visitRest_append_of_err (cls : Registry) :
    ∀ (xs : List AminoAcid) (ys : List AminoAcid) (i : Nat) (e : Error),
      (visitRest cls xs i).2 = some e →
      visitRest cls (xs ++ ys) i = visitRest cls xs i
  | [], ys, i, e, h => by simp [visitRest] at h
  | aa :: rest, ys, i, e, h => by
    rcases hv : visitResidue aa (pos16 i) cls with ⟨ins, e1⟩
    rcases e1 with _ | e1
    · rcases hr : visitRest cls rest (i + 1) with ⟨ins2, e2⟩
      rw [visitRest, hv, hr] at h
      simp only at h
      subst h
      have ih := visitRest_append_of_err cls rest ys (i + 1) e (by rw [hr])
      simp only [List.cons_append, List.append_eq, visitRest, hv, ih, hr]
    · simp only [List.cons_append, List.append_eq, visitRest, hv]

theorem visit_append_of_err (cyc : Cyclization) (cls : Registry) (num : Nat)
    (xs ys : List AminoAcid) (e : Error)
    (h : (Protein.mk cyc cls num xs).visit.2 = some e) :
    (Protein.mk cyc cls num (xs ++ ys)).visit = (Protein.mk cyc cls num xs).visit := by
  rcases xs with _ | ⟨aa, rest⟩
  · simp [Protein.visit] at h
  · rcases hv : visitResidue aa (pos16 0) cls with ⟨ins, e1⟩
    rcases e1 with _ | e1
    · rcases hr : visitRest cls rest 1 with ⟨ins2, e2⟩
      rcases e2 with _ | e2
      · exact absurd h (by simp [Protein.visit, hv, hr])
      · have h2 : (visitRest cls rest 1).2 = some e2 := by rw [hr]
        have ih := visitRest_append_of_err cls rest ys 1 e2 h2
        simp only [List.cons_append, Protein.visit, hv, ih, hr]
    · simp only [List.cons_append, Protein.visit, hv]

theorem countJoin_visit (p : Protein) (m : Nat) (h0 : m ≠ 0) (h1 : m ≠ 1) (h2 : m ≠ 2)
    (hs : (p.visit).2 = none) :
    countJoin m (p.visit).1 = markerHits p.crossLinks m (posFrom p.sequence.length 0) := by
  have e0 : (0 = m) = False := by simp [Ne.symm h0]
  rcases hseq : p.sequence with _ | ⟨aa, rest⟩
  · simp [Protein.visit, hseq, countJoin, posFrom, markerHits]
  · obtain ⟨ins, ins2, hv, hr, hvis⟩ := visit_success_shape p aa rest hseq hs
    have hres := (countJoin_visitResidue aa (pos16 0) p.crossLinks m h1 h2).2 (by rw [hv])
    rw [hv] at hres
    simp only at hres
    have hrest := (countJoin_visitRest p.crossLinks m h1 h2 rest 1).2 (by rw [hr])
    rw [hr] at hrest
    simp only at hrest
    rw [hvis]
    simp only [hseq, List.length_cons, posFrom, markerHits]
    simp only [countJoin_append, List.cons_append, List.nil_append, countJoin, e0, if_false]
    split <;> simp [countJoin, countJoin_append, List.cons_append, e0, hres, hrest]

theorem countJoin_zero_visit_none (p : Protein)
    (hcyc : p.cyclization = Cyclization.None)
    (hm : ∀ k mk cl, lookupCL p.crossLinks k = some (mk, cl) → mk ≠ 0) :
    countJoin 0 (p.visit).1 = 0 := by
  have hz := markerHits_all_zero p.crossLinks 0 hm
  rcases hseq : p.sequence with _ | ⟨aa, rest⟩
  · simp [Protein.visit, hseq, countJoin]
  · have hres := (countJoin_visitResidue aa (pos16 0) p.crossLinks 0 (by omega) (by omega)).1
    have hhit : hitInd p.crossLinks 0 (pos16 0) = 0 := by
      have := hz [pos16 0]
      simp [markerHits] at this
      omega
    rcases hv : visitResidue aa (pos16 0) p.crossLinks with ⟨ins, e1⟩
    rw [hv] at hres
    simp only at hres
    have hins : countJoin 0 ins = 0 := by omega
    rcases e1 with _ | e1
    · have hrest := (countJoin_visitRest p.crossLinks 0 (by omega) (by omega) rest 1).1
      rcases hr : visitRest p.crossLinks rest 1 with ⟨ins2, e2⟩
      rw [hr] at hrest
      simp only at hrest
      rw [hz (posFrom rest.length 1)] at hrest
      have hins2 : countJoin 0 ins2 = 0 := by omega
      rcases e2 with _ | e2 <;>
        simp [Protein.visit, hseq, hv, hr, hcyc, countJoin_append, countJoin, hins, hins2]
    · simp [Protein.visit, hseq, hv, hcyc, countJoin_append, countJoin, hins]

theorem countJoin_zero_visit_h2t (p : Protein) (aa : AminoAcid) (rest : List AminoAcid)
    (hcyc : p.cyclization = Cyclization.HeadToTail) (hseq : p.sequence = aa :: rest)
    (hm : ∀ k mk cl, lookupCL p.crossLinks k = some (mk, cl) → mk ≠ 0)
    (hs : (p.visit).2 = none) :
    countJoin 0 (p.visit).1 = 2 := by
  have hz := markerHits_all_zero p.crossLinks 0 hm
  obtain ⟨ins, ins2, hv, hr, hvis⟩ := visit_success_shape p aa rest hseq hs
  have hres := (countJoin_visitResidue aa (pos16 0) p.crossLinks 0 (by omega) (by omega)).2
    (by rw [hv])
  rw [hv] at hres
  simp only at hres
  have hhit : hitInd p.crossLinks 0 (pos16 0) = 0 := by
    have := hz [pos16 0]
    simp [markerHits] at this
    omega
  have hrest := (countJoin_visitRest p.crossLinks 0 (by omega) (by omega) rest 1).2
    (by rw [hr])
  rw [hr] at hrest
  simp only at hrest
  rw [hz (posFrom rest.length 1)] at hrest
  rw [hvis]
  simp [hcyc, countJoin_append, countJoin, hres, hhit, hrest]

/-! ### Registration-fold invariants -/

theorem rnumTryFrom_some (n rnum : Nat) (h : rnumTryFrom n = some rnum) :
    n < 100 ∧ rnum = n := by
  unfold rnumTryFrom at h
  split at h
  · injection h with h
    exact ⟨by assumption, h.symm⟩
  · exact absurd h (by simp)

theorem crossLink_ok_inv (p : Protein) (cl : CrossLink) (p1 : Protein)
    (h : p.crossLink cl = some (p1, none)) :
    p.crossLinkNum < 100 ∧
    p1.cyclization = p.cyclization ∧ p1.sequence = p.sequence ∧
    p1.crossLinkNum = p.crossLinkNum + 1 ∧
    lookupCL p.crossLinks cl.positions.1 = none ∧
    lookupCL (p.crossLinks ++ [(cl.positions.1, (p.crossLinkNum, cl))])
      cl.positions.2 = none ∧
    p1.crossLinks = p.crossLinks ++
      [(cl.positions.1, (p.crossLinkNum, cl)), (cl.positions.2, (p.crossLinkNum, cl))] := by
  rcases hr : rnumTryFrom p.crossLinkNum with _ | rnum
  · simp [Protein.crossLink, hr] at h
  · obtain ⟨hlt, rfl⟩ := rnumTryFrom_some _ _ hr
    rcases hi : lookupCL p.crossLinks cl.positions.1 with _ | w1
    · have hf1 : (insertCL p.crossLinks cl.positions.1 (p.crossLinkNum, cl)).1 =
          p.crossLinks ++ [(cl.positions.1, (p.crossLinkNum, cl))] :=
        insertCL_fresh _ _ _ hi
      rcases hj : lookupCL (p.crossLinks ++ [(cl.positions.1, (p.crossLinkNum, cl))])
          cl.positions.2 with _ | w2
      · have hj2 : lookupCL (insertCL p.crossLinks cl.positions.1
            (p.crossLinkNum, cl)).1 cl.positions.2 = none := by rw [hf1]; exact hj
        have heq := crossLink_ok p cl cl.positions.1 cl.positions.2 p.crossLinkNum rfl hr
          hi hj2
        rw [heq] at h
        simp only [Option.some.injEq, Prod.mk.injEq] at h
        obtain ⟨hp1, -⟩ := h
        subst hp1
        refine ⟨hlt, rfl, rfl, by simp only; omega, rfl, rfl, ?_⟩
        simp only [hf1]
        rw [insertCL_fresh _ _ _ hj]
        simp [List.append_assoc]
      · have hj2 : lookupCL (insertCL p.crossLinks cl.positions.1
            (p.crossLinkNum, cl)).1 cl.positions.2 = some w2 := by rw [hf1]; exact hj
        have heq := crossLink_dup_second p cl cl.positions.1 cl.positions.2 p.crossLinkNum
          w2 rfl hr hi hj2
        rw [heq] at h
        simp at h
    · have heq := crossLink_dup_first p cl cl.positions.1 cl.positions.2 p.crossLinkNum
        w1 rfl hr hi
      rw [heq] at h
      simp at h

theorem keysNodup_extend (m : Registry) (i j : Nat) (v v2 : Nat × CrossLink)
    (hnd : keysNodup m) (hi : lookupCL m i = none)
    (hj : lookupCL (m ++ [(i, v)]) j = none) :
    keysNodup (m ++ [(i, v), (j, v2)]) := by
  have hji : lookupCL m j = none ∧ j ≠ i := by
    rw [lookupCL_append] at hj
    rcases hl : lookupCL m j with _ | w
    · rw [hl] at hj
      simp only [lookupCL] at hj
      constructor
      · rfl
      · intro he
        rw [if_pos he.symm] at hj
        exact absurd hj (by simp)
    · rw [hl] at hj
      simp at hj
  have hmi := (lookupCL_eq_none m i).mp hi
  have hmj := (lookupCL_eq_none m j).mp hji.1
  unfold keysNodup at hnd ⊢
  rw [List.map_append]
  rw [List.nodup_append]
  refine ⟨hnd, by simp [(Ne.symm hji.2 : i ≠ j)], ?_⟩
  intro a ha hb
  simp only [List.map_cons, List.map_nil, List.mem_cons, List.not_mem_nil, or_false,
    List.mem_singleton] at hb
  rcases hb with rfl | rfl
  · exact hmi ha
  · exact hmj ha

theorem crossLinkAll_ok : ∀ (L : List CrossLink) (p pN : Protein),
    crossLinkAll p L = some (pN, none) →
    pN.cyclization = p.cyclization ∧ pN.sequence = p.sequence ∧
    pN.crossLinkNum = p.crossLinkNum + L.length ∧
    pN.crossLinks = p.crossLinks ++ buildRegistry p.crossLinkNum L ∧
    (keysNodup p.crossLinks → keysNodup pN.crossLinks)
  | [], p, pN, h => by
    rw [crossLinkAll] at h
    simp only [Option.some.injEq, Prod.mk.injEq] at h
    obtain ⟨rfl, -⟩ := h
    simp [buildRegistry]
  | cl :: rest, p, pN, h => by
    rcases hc : p.crossLink cl with _ | ⟨p1, e⟩
    · rw [crossLinkAll, hc] at h
      exact absurd h (by simp)
    · rcases e with _ | e
      · rw [crossLinkAll, hc] at h
        simp only at h
        obtain ⟨hlt, hcyc, hseq, hnum, hfresh1, hfresh2, hreg⟩ := crossLink_ok_inv p cl p1 hc
        obtain ⟨icyc, iseq, inum, ireg, indp⟩ := crossLinkAll_ok rest p1 pN h
        refine ⟨icyc.trans hcyc, iseq.trans hseq, by rw [inum, hnum]; simp; omega, ?_, ?_⟩
        · rw [ireg, hreg, hnum]
          simp [buildRegistry, List.append_assoc]
        · intro hnd
          apply indp
          rw [hreg]
          exact keysNodup_extend p.crossLinks cl.positions.1 cl.positions.2 _ _ hnd
            hfresh1 hfresh2
      · rw [crossLinkAll, hc] at h
        simp at h

/-! ### Registry built from successful registrations -/

theorem buildRegistry_mem : ∀ (L : List CrossLink) (c k : Nat) (mv : Nat × CrossLink),
    (k, mv) ∈ buildRegistry c L →
    ∃ t, ∃ h : t < L.length, mv = (c + t, L.get ⟨t, h⟩) ∧
      (k = (L.get ⟨t, h⟩).positions.1 ∨ k = (L.get ⟨t, h⟩).positions.2)
  | [], c, k, mv, h => by simp [buildRegistry] at h
  | cl :: rest, c, k, mv, h => by
    simp only [buildRegistry, List.mem_cons] at h
    rcases h with h | h | h
    · injection h with h1 h2
      exact ⟨0, by simp, by simp [h2], Or.inl h1⟩
    · injection h with h1 h2
      exact ⟨0, by simp, by simp [h2], Or.inr h1⟩
    · obtain ⟨t, ht, hmv, hk⟩ := buildRegistry_mem rest (c + 1) k mv h
      refine ⟨t + 1, by simpa using Nat.succ_lt_succ ht, ?_, ?_⟩
      · rw [hmv]
        simp only [Prod.mk.injEq]
        exact ⟨by omega, rfl⟩
      · exact hk

theorem buildRegistry_mem_fst : ∀ (L : List CrossLink) (c t : Nat) (h : t < L.length),
    ((L.get ⟨t, h⟩).positions.1, (c + t, L.get ⟨t, h⟩)) ∈ buildRegistry c L ∧
    ((L.get ⟨t, h⟩).positions.2, (c + t, L.get ⟨t, h⟩)) ∈ buildRegistry c L
  | [], c, t, h => by simp at h
  | cl :: rest, c, 0, h => by
    simp [buildRegistry, List.get]
  | cl :: rest, c, t + 1, h => by
    have ih := buildRegistry_mem_fst rest (c + 1) t (by simpa using Nat.lt_of_succ_lt_succ h)
    simp only [buildRegistry, List.mem_cons, List.get]
    rw [show c + (t + 1) = c + 1 + t by omega]
    exact ⟨Or.inr (Or.inr ih.1), Or.inr (Or.inr ih.2)⟩

theorem buildRegistry_pair_ne : ∀ (L : List CrossLink) (c t : Nat) (h : t < L.length),
    keysNodup (buildRegistry c L) →
    (L.get ⟨t, h⟩).positions.1 ≠ (L.get ⟨t, h⟩).positions.2
  | [], c, t, h, _ => by simp at h
  | cl :: rest, c, 0, h, hnd => by
    simp only [keysNodup, buildRegistry, List.map_cons, List.nodup_cons, List.mem_cons] at hnd
    simp only [List.get]
    intro he
    exact hnd.1 (Or.inl he)
  | cl :: rest, c, t + 1, h, hnd => by
    have hnd2 : keysNodup (buildRegistry (c + 1) rest) := by
      simp only [keysNodup, buildRegistry, List.map_cons, List.nodup_cons] at hnd
      exact hnd.2.2
    simpa [List.get] using
      buildRegistry_pair_ne rest (c + 1) t (by simpa using Nat.lt_of_succ_lt_succ h) hnd2

theorem hitInd_buildRegistry (L : List CrossLink) (t : Nat) (ht : t < L.length)
    (hnd : keysNodup (buildRegistry 3 L)) (p : Nat) :
    hitInd (buildRegistry 3 L) (3 + t) p =
      if p = (L.get ⟨t, ht⟩).positions.1 ∨ p = (L.get ⟨t, ht⟩).positions.2 then 1
      else 0 := by
  by_cases hp : p = (L.get ⟨t, ht⟩).positions.1 ∨ p = (L.get ⟨t, ht⟩).positions.2
  · rw [if_pos hp]
    have hmem := buildRegistry_mem_fst L 3 t ht
    have hl : lookupCL (buildRegistry 3 L) p = some (3 + t, L.get ⟨t, ht⟩) := by
      rcases hp with rfl | rfl
      · exact mem_lookupCL _ _ _ hnd hmem.1
      · exact mem_lookupCL _ _ _ hnd hmem.2
    simp [hitInd, hl]
  · rw [if_neg hp]
    unfold hitInd
    rcases hl : lookupCL (buildRegistry 3 L) p with _ | ⟨mk, cl2⟩
    · rfl
    · obtain ⟨s, hs, hmv, hk⟩ := buildRegistry_mem L 3 p (mk, cl2) (lookupCL_mem _ _ _ hl)
      injection hmv with hm1 hm2
      by_cases hms : mk = 3 + t
      · exfalso
        have hst : s = t := by omega
        subst hst
        exact hp hk
      · simp [hms]

theorem markerHits_pair (cls : Registry) (m x y : Nat) (hxy : x ≠ y)
    (hpt : ∀ p, hitInd cls m p = if p = x ∨ p = y then 1 else 0) :
    ∀ (n i : Nat), i + n ≤ 65535 →
      markerHits cls m (posFrom n i) =
        (if i + 1 ≤ x ∧ x ≤ i + n then 1 else 0) +
        (if i + 1 ≤ y ∧ y ≤ i + n then 1 else 0)
  | 0, i, h => by
    simp only [posFrom, markerHits]
    split_ifs <;> omega
  | n + 1, i, h => by
    have hp : pos16 i = i + 1 := pos16_eq i (by omega)
    simp only [posFrom, markerHits, hp, hpt (i + 1)]
    rw [markerHits_pair cls m x y hxy hpt n (i + 1) (by omega)]
    split_ifs <;> omega

/-! ### Registry congruence and filtering -/

theorem residueArm_congr (aa : AminoAcid) (index : Nat) (cls cls2 : Registry)
    (h : lookupCL cls index = lookupCL cls2 index) :
    residueArm aa index cls = residueArm aa index cls2 := by
  cases aa <;> simp only [residueArm, h]

theorem visitResidue_congr (aa : AminoAcid) (index : Nat) (cls cls2 : Registry)
    (h : lookupCL cls index = lookupCL cls2 index) :
    visitResidue aa index cls = visitResidue aa index cls2 := by
  unfold visitResidue visitResidueBody
  rw [residueArm_congr aa index cls cls2 h]
  by_cases hg : aa ≠ AminoAcid.Thr ∧ aa ≠ AminoAcid.Cys
  · rw [if_pos hg, if_pos hg, h]
  · rw [if_neg hg, if_neg hg]

theorem visitRest_congr (cls cls2 : Registry) :
    ∀ (xs : List AminoAcid) (i : Nat),
      (∀ t, t < xs.length → lookupCL cls (pos16 (i + t)) = lookupCL cls2 (pos16 (i + t))) →
      visitRest cls xs i = visitRest cls2 xs i
  | [], _, _ => rfl
  | aa :: rest, i, h => by
    have h0 := h 0 (by simp)
    simp only [Nat.add_zero] at h0
    have hv := visitResidue_congr aa (pos16 i) cls cls2 h0
    have ih := visitRest_congr cls cls2 rest (i + 1) (fun t ht => by
      have h2 := h (t + 1) (by simpa using Nat.succ_lt_succ ht)
      rw [show i + (t + 1) = i + 1 + t by omega] at h2
      exact h2)
    simp only [visitRest, hv, ih]

theorem visit_congr (cyc : Cyclization) (cls cls2 : Registry) (num : Nat)
    (seq : List AminoAcid)
    (h : ∀ t, t < seq.length → lookupCL cls (pos16 t) = lookupCL cls2 (pos16 t)) :
    (Protein.mk cyc cls num seq).visit = (Protein.mk cyc cls2 num seq).visit := by
  rcases seq with _ | ⟨aa, rest⟩
  · rfl
  · have h0 := h 0 (by simp)
    have hv := visitResidue_congr aa (pos16 0) cls cls2 h0
    have ih := visitRest_congr cls cls2 rest 1 (fun t ht => by
      exact h (1 + t) (by simp [List.length_cons]; omega))
    simp only [Protein.visit, hv, ih]

theorem lookupCL_filter (pred : Nat × (Nat × CrossLink) → Bool) :
    ∀ (m : Registry) (k : Nat), (∀ v, pred (k, v) = true) →
      lookupCL (m.filter pred) k = lookupCL m k
  | [], _, _ => rfl
  | (k1, v1) :: rest, k, h => by
    by_cases hk : k1 = k
    · subst hk
      simp [List.filter_cons, h v1, lookupCL]
    · cases hp : pred (k1, v1) <;>
        simp [List.filter_cons, hp, lookupCL, hk, lookupCL_filter pred rest k h]

theorem countJoin_visit_le (p : Protein) (m : Nat) (h0 : m ≠ 0) (h1 : m ≠ 1) (h2 : m ≠ 2) :
    countJoin m (p.visit).1 ≤ markerHits p.crossLinks m (posFrom p.sequence.length 0) := by
  have e0 : (0 = m) = False := by simp [Ne.symm h0]
  rcases hseq : p.sequence with _ | ⟨aa, rest⟩
  · simp [Protein.visit, hseq, countJoin]
  · have hres := (countJoin_visitResidue aa (pos16 0) p.crossLinks m h1 h2).1
    rcases hv : visitResidue aa (pos16 0) p.crossLinks with ⟨ins, e1⟩
    rw [hv] at hres
    simp only at hres
    simp only [hseq, List.length_cons, posFrom, markerHits]
    rcases e1 with _ | e1
    · have hrest := (countJoin_visitRest p.crossLinks m h1 h2 rest 1).1
      rcases hr : visitRest p.crossLinks rest 1 with ⟨ins2, e2⟩
      rw [hr] at hrest
      simp only at hrest
      rcases e2 with _ | e2 <;>
        · simp only [Protein.visit, hseq, hv, hr]
          split_ifs <;>
            simp [countJoin, countJoin_append, List.cons_append, e0] <;> omega
    · simp only [Protein.visit, hseq, hv]
      split_ifs <;>
        simp [countJoin, countJoin_append, List.cons_append, e0] <;> omega

theorem crossLink_num_eq_of_err (p : Protein) (cl : CrossLink) (p1 : Protein) (e : Error)
    (h : p.crossLink cl = some (p1, some e)) : p1.crossLinkNum = p.crossLinkNum := by
  rcases hr : rnumTryFrom p.crossLinkNum with _ | rnum
  · simp [Protein.crossLink, hr] at h
  · cases cl <;> simp only [Protein.crossLink, hr] at h <;>
    · split at h
      · obtain ⟨h1, -⟩ : _ ∧ _ := by simpa using h
        subst h1
        rfl
      · split at h
        · obtain ⟨h1, -⟩ : _ ∧ _ := by simpa using h
          subst h1
          rfl
        · simp at h

/-! ### Claim theorems -/

/-- C1: the spec claims that once the next-marker counter has reached the
textual notation's marker capacity, `cross_link` returns `TooManyCrossLinks`
without panicking and without inserting.  The code instead panics:
`Rnum::try_from(self.cross_link_num).unwrap()` fails at capacity (modelled by
the outer `Option` being `none`), and `Error.TooManyCrossLinks` is never
constructed anywhere in the crate.  Evaluating the code at the failing input
(counter at capacity 100, any cross-link argument) shows the panic. -/
theorem c1_at_capacity_code_panics :
    (∀ cl : CrossLink,
      Protein.crossLink
        { cyclization := Cyclization.None, crossLinks := [], crossLinkNum := 100,
          sequence := [] } cl = none) ∧
    rnumTryFrom 100 = none :=
  ⟨fun _ => rfl, rfl⟩

/-- C2 counterexample: registering `Cystine(1,3)` on a protein whose registry
already maps position 1 to `(3, Cystine(1,2))` fails with
`DuplicateCrossLink 1`, but the prior entry at position 1 is NOT left
unchanged: it is replaced by the new value `(4, Cystine(1,3))`. -/
theorem c2_counterexample :
    Protein.crossLink
      { cyclization := Cyclization.None
        crossLinks := [(1, (3, CrossLink.Cystine 1 2)), (2, (3, CrossLink.Cystine 1 2))]
        crossLinkNum := 4
        sequence := [AminoAcid.Cys, AminoAcid.Cys, AminoAcid.Cys] }
      (CrossLink.Cystine 1 3) =
      some ({ cyclization := Cyclization.None
              crossLinks := [(1, (4, CrossLink.Cystine 1 3)),
                             (2, (3, CrossLink.Cystine 1 2))]
              crossLinkNum := 4
              sequence := [AminoAcid.Cys, AminoAcid.Cys, AminoAcid.Cys] },
            some (Error.DuplicateCrossLink 1)) ∧
    lookupCL [(1, (4, CrossLink.Cystine 1 3)), (2, (3, CrossLink.Cystine 1 2))] 1 ≠
      lookupCL [(1, (3, CrossLink.Cystine 1 2)), (2, (3, CrossLink.Cystine 1 2))] 1 := by
  decide

/-- C2 (amended): inserting a cross-link with an endpoint position that
already has a registry entry fails with `DuplicateCrossLink` at the first
such endpoint, but the failed insertion IS an overwrite: the registry entry
at that position is replaced with the new (marker, cross-link) value. -/
theorem c2_amended_duplicate_overwrites (p : Protein) (cl : CrossLink) (i j rnum : Nat)
    (w : Nat × CrossLink) (hpos : cl.positions = (i, j))
    (hr : rnumTryFrom p.crossLinkNum = some rnum) :
    (lookupCL p.crossLinks i = some w →
      p.crossLink cl =
        some ({ p with crossLinks := (insertCL p.crossLinks i (rnum, cl)).1 },
              some (Error.DuplicateCrossLink i)) ∧
      lookupCL (insertCL p.crossLinks i (rnum, cl)).1 i = some (rnum, cl)) ∧
    (lookupCL p.crossLinks i = none → lookupCL p.crossLinks j = some w →
      p.crossLink cl =
        some ({ p with crossLinks :=
                  (insertCL (insertCL p.crossLinks i (rnum, cl)).1 j (rnum, cl)).1 },
              some (Error.DuplicateCrossLink j)) ∧
      lookupCL (insertCL (insertCL p.crossLinks i (rnum, cl)).1 j (rnum, cl)).1 j =
        some (rnum, cl)) := by
  constructor
  · intro hi
    exact ⟨crossLink_dup_first p cl i j rnum w hpos hr hi, lookupCL_insertCL_self _ _ _⟩
  · intro hi hj
    have hij : j ≠ i := by
      intro he
      rw [he, hi] at hj
      exact absurd hj (by simp)
    have hj2 : lookupCL (insertCL p.crossLinks i (rnum, cl)).1 j = some w := by
      rw [lookupCL_insertCL_ne _ _ _ _ hij]
      exact hj
    exact ⟨crossLink_dup_second p cl i j rnum w hpos hr hi hj2,
           lookupCL_insertCL_self _ _ _⟩

/-- C2 witness: the amended statement evaluated on a concrete registry with a
duplicate first endpoint. -/
theorem c2_witness :
    Protein.crossLink
      { cyclization := Cyclization.None
        crossLinks := [(1, (3, CrossLink.Cystine 1 2)), (2, (3, CrossLink.Cystine 1 2))]
        crossLinkNum := 4
        sequence := [] }
      (CrossLink.Cystine 1 3) =
      some ({ cyclization := Cyclization.None
              crossLinks :=
                (insertCL [(1, (3, CrossLink.Cystine 1 2)),
                           (2, (3, CrossLink.Cystine 1 2))] 1
                  (4, CrossLink.Cystine 1 3)).1
              crossLinkNum := 4
              sequence := [] },
            some (Error.DuplicateCrossLink 1)) ∧
    lookupCL (insertCL [(1, (3, CrossLink.Cystine 1 2)),
                        (2, (3, CrossLink.Cystine 1 2))] 1
                (4, CrossLink.Cystine 1 3)).1 1 = some (4, CrossLink.Cystine 1 3) :=
  (c2_amended_duplicate_overwrites
    { cyclization := Cyclization.None
      crossLinks := [(1, (3, CrossLink.Cystine 1 2)), (2, (3, CrossLink.Cystine 1 2))]
      crossLinkNum := 4
      sequence := [] }
    (CrossLink.Cystine 1 3) 1 3 4 (3, CrossLink.Cystine 1 2) rfl rfl).1 rfl

/-- C3 counterexample: with `Lan(1,2)` registered on `[Cys, Thr]`, the
threonine at the second endpoint does NOT emit successfully: the traversal
fails with `InvalidCrossLink(2, Thr, Lan(1,2))`, because the threonine recipe
only supports `MeLan`. -/
theorem c3_counterexample :
    (Protein.new [AminoAcid.Cys, AminoAcid.Thr]).crossLink (CrossLink.Lan 1 2) =
      some ({ cyclization := Cyclization.None
              crossLinks := [(1, (3, CrossLink.Lan 1 2)), (2, (3, CrossLink.Lan 1 2))]
              crossLinkNum := 4
              sequence := [AminoAcid.Cys, AminoAcid.Thr] }, none) ∧
    ({ cyclization := Cyclization.None
       crossLinks := [(1, (3, CrossLink.Lan 1 2)), (2, (3, CrossLink.Lan 1 2))]
       crossLinkNum := 4
       sequence := [AminoAcid.Cys, AminoAcid.Thr] } : Protein).visit.2 =
      some (Error.InvalidCrossLink 2 AminoAcid.Thr (CrossLink.Lan 1 2)) := by
  decide

/-- C3 (amended): for a registered `Lan(a,b)` cross-link, the endpoint whose
position equals the first component `a` must be a cysteine and emits the
sulfur atom before closing the shared marker; the other endpoint must ALSO be
a cysteine, which closes the marker directly on its existing carbon without
emitting a sulfur; any other residue (threonine included) at a `Lan` endpoint
fails with `InvalidCrossLink` rather than emitting. -/
theorem c3_amended_lan_endpoints (cls : Registry) (idx rnum a b : Nat)
    (h : lookupCL cls idx = some (rnum, CrossLink.Lan a b)) :
    (a = idx →
      visitResidue AminoAcid.Cys idx cls =
        ([Instruction.extend .elided CARBON_TH2,
          Instruction.extend .elided (.aliphatic .C),
          Instruction.extend .elided (.aliphatic .S),
          Instruction.join .elided rnum,
          Instruction.pop 2,
          Instruction.extend .elided (.aliphatic .C)], none)) ∧
    (a ≠ idx →
      visitResidue AminoAcid.Cys idx cls =
        ([Instruction.extend .elided CARBON_TH2,
          Instruction.extend .elided (.aliphatic .C),
          Instruction.join .elided rnum,
          Instruction.pop 1,
          Instruction.extend .elided (.aliphatic .C)], none)) ∧
    (∀ aa, aa ≠ AminoAcid.Cys →
      (visitResidue aa idx cls).2 =
        some (Error.InvalidCrossLink idx aa (CrossLink.Lan a b))) := by
  refine ⟨?_, ?_, ?_⟩
  · intro ha
    exact visitResidue_cys_lan_first idx cls rnum a b h ha
  · intro ha
    exact visitResidue_cys_lan_other idx cls rnum a b h ha
  · intro aa hc
    by_cases ht : aa = AminoAcid.Thr
    · subst ht
      rw [visitResidue_thr_err idx cls rnum (CrossLink.Lan a b) h
        (fun x y hh => CrossLink.noConfusion hh)]
    · rw [visitResidue_guard aa idx cls rnum (CrossLink.Lan a b) ht hc h]

/-- C3 witness: the amended statement evaluated on the registry of a
`Lan(1,2)` cross-link, at both endpoints and at a threonine endpoint. -/
theorem c3_witness :
    visitResidue AminoAcid.Cys 1
        [(1, (3, CrossLink.Lan 1 2)), (2, (3, CrossLink.Lan 1 2))] =
      ([Instruction.extend .elided CARBON_TH2,
        Instruction.extend .elided (.aliphatic .C),
        Instruction.extend .elided (.aliphatic .S),
        Instruction.join .elided 3,
        Instruction.pop 2,
        Instruction.extend .elided (.aliphatic .C)], none) ∧
    visitResidue AminoAcid.Cys 2
        [(1, (3, CrossLink.Lan 1 2)), (2, (3, CrossLink.Lan 1 2))] =
      ([Instruction.extend .elided CARBON_TH2,
        Instruction.extend .elided (.aliphatic .C),
        Instruction.join .elided 3,
        Instruction.pop 1,
        Instruction.extend .elided (.aliphatic .C)], none) ∧
    (visitResidue AminoAcid.Thr 2
        [(1, (3, CrossLink.Lan 1 2)), (2, (3, CrossLink.Lan 1 2))]).2 =
      some (Error.InvalidCrossLink 2 AminoAcid.Thr (CrossLink.Lan 1 2)) :=
  ⟨(c3_amended_lan_endpoints
      [(1, (3, CrossLink.Lan 1 2)), (2, (3, CrossLink.Lan 1 2))] 1 3 1 2 rfl).1 rfl,
   (c3_amended_lan_endpoints
      [(1, (3, CrossLink.Lan 1 2)), (2, (3, CrossLink.Lan 1 2))] 2 3 1 2 rfl).2.1
     (by decide),
   (c3_amended_lan_endpoints
      [(1, (3, CrossLink.Lan 1 2)), (2, (3, CrossLink.Lan 1 2))] 2 3 1 2 rfl).2.2
     AminoAcid.Thr (by decide)⟩

/-- C4: a `cross_link` call that fails with `DuplicateCrossLink` leaves the
next-marker counter unchanged (no marker is consumed), and when the first
endpoint's insertion succeeds but the second endpoint's fails, the first
endpoint remains mapped in the registry after the error (the partial insert
persists). -/
theorem c4_duplicate_no_marker_and_partial_insert :
    (∀ (p : Protein) (cl : CrossLink) (p1 : Protein) (k : Nat),
      p.crossLink cl = some (p1, some (Error.DuplicateCrossLink k)) →
      p1.crossLinkNum = p.crossLinkNum) ∧
    (∀ (p : Protein) (cl : CrossLink) (i j rnum : Nat) (w : Nat × CrossLink),
      cl.positions = (i, j) →
      rnumTryFrom p.crossLinkNum = some rnum →
      lookupCL p.crossLinks i = none →
      lookupCL (insertCL p.crossLinks i (rnum, cl)).1 j = some w →
      p.crossLink cl =
        some ({ p with crossLinks :=
                  (insertCL (insertCL p.crossLinks i (rnum, cl)).1 j (rnum, cl)).1 },
              some (Error.DuplicateCrossLink j)) ∧
      lookupCL (insertCL (insertCL p.crossLinks i (rnum, cl)).1 j (rnum, cl)).1 i =
        some (rnum, cl)) := by
  constructor
  · intro p cl p1 k h
    exact crossLink_num_eq_of_err p cl p1 _ h
  · intro p cl i j rnum w hpos hr hi hj
    refine ⟨crossLink_dup_second p cl i j rnum w hpos hr hi hj, ?_⟩
    by_cases hij : i = j
    · subst hij
      exact lookupCL_insertCL_self _ _ _
    · rw [lookupCL_insertCL_ne _ _ _ _ hij]
      exact lookupCL_insertCL_self _ _ _

/-- C4 witness: both parts evaluated on concrete registries (a duplicate
first endpoint for the counter part; a fresh first endpoint with an occupied
second endpoint for the partial-insert part). -/
theorem c4_witness :
    ({ cyclization := Cyclization.None
       crossLinks := [(1, (4, CrossLink.Cystine 1 3)), (2, (3, CrossLink.Cystine 1 2))]
       crossLinkNum := 4
       sequence := [] } : Protein).crossLinkNum =
      ({ cyclization := Cyclization.None
         crossLinks := [(1, (3, CrossLink.Cystine 1 2)), (2, (3, CrossLink.Cystine 1 2))]
         crossLinkNum := 4
         sequence := [] } : Protein).crossLinkNum ∧
    (Protein.crossLink
        { cyclization := Cyclization.None
          crossLinks := [(2, (3, CrossLink.Cystine 2 9))]
          crossLinkNum := 4
          sequence := [] }
        (CrossLink.Cystine 1 2) =
      some ({ cyclization := Cyclization.None
              crossLinks :=
                (insertCL (insertCL [(2, (3, CrossLink.Cystine 2 9))] 1
                    (4, CrossLink.Cystine 1 2)).1 2 (4, CrossLink.Cystine 1 2)).1
              crossLinkNum := 4
              sequence := [] },
            some (Error.DuplicateCrossLink 2)) ∧
      lookupCL (insertCL (insertCL [(2, (3, CrossLink.Cystine 2 9))] 1
          (4, CrossLink.Cystine 1 2)).1 2 (4, CrossLink.Cystine 1 2)).1 1 =
        some (4, CrossLink.Cystine 1 2)) :=
  ⟨c4_duplicate_no_marker_and_partial_insert.1
      { cyclization := Cyclization.None
        crossLinks := [(1, (3, CrossLink.Cystine 1 2)), (2, (3, CrossLink.Cystine 1 2))]
        crossLinkNum := 4
        sequence := [] }
      (CrossLink.Cystine 1 3)
      { cyclization := Cyclization.None
        crossLinks := [(1, (4, CrossLink.Cystine 1 3)), (2, (3, CrossLink.Cystine 1 2))]
        crossLinkNum := 4
        sequence := [] } 1 (by decide),
   c4_duplicate_no_marker_and_partial_insert.2
      { cyclization := Cyclization.None
        crossLinks := [(2, (3, CrossLink.Cystine 2 9))]
        crossLinkNum := 4
        sequence := [] }
      (CrossLink.Cystine 1 2) 1 2 4 (3, CrossLink.Cystine 2 9) rfl rfl rfl (by decide)⟩

/-- C5: a residue that is neither cysteine nor threonine with a registered
cross-link fails with `InvalidCrossLink` carrying the position, the residue
and the cross-link (emitting nothing); a threonine registered under a
cross-link kind other than `MeLan` fails the same way; the traversal aborts
at the first offending position, emitting nothing for any later residue; and
a residue with no registered cross-link at its position never fails. -/
theorem c5_invalid_cross_link_errors :
    (∀ (aa : AminoAcid) (idx : Nat) (cls : Registry) (m : Nat) (cl : CrossLink),
      aa ≠ AminoAcid.Thr → aa ≠ AminoAcid.Cys → lookupCL cls idx = some (m, cl) →
      visitResidue aa idx cls = ([], some (Error.InvalidCrossLink idx aa cl))) ∧
    (∀ (idx : Nat) (cls : Registry) (m : Nat) (cl : CrossLink),
      lookupCL cls idx = some (m, cl) → (∀ a b, cl ≠ CrossLink.MeLan a b) →
      (visitResidue AminoAcid.Thr idx cls).2 =
        some (Error.InvalidCrossLink idx AminoAcid.Thr cl)) ∧
    (∀ (cyc : Cyclization) (cls : Registry) (num : Nat) (xs ys : List AminoAcid)
      (e : Error),
      (Protein.mk cyc cls num xs).visit.2 = some e →
      (Protein.mk cyc cls num (xs ++ ys)).visit = (Protein.mk cyc cls num xs).visit) ∧
    (∀ (aa : AminoAcid) (idx : Nat) (cls : Registry),
      lookupCL cls idx = none → (visitResidue aa idx cls).2 = none) := by
  refine ⟨?_, ?_, ?_, ?_⟩
  · intro aa idx cls m cl h1 h2 h
    exact visitResidue_guard aa idx cls m cl h1 h2 h
  · intro idx cls m cl h hml
    rw [visitResidue_thr_err idx cls m cl h hml]
  · intro cyc cls num xs ys e h
    exact visit_append_of_err cyc cls num xs ys e h
  · intro aa idx cls h
    exact visitResidue_err_none aa idx cls h

/-- C5 witness: the four parts evaluated on concrete inputs (an alanine under
a cystine link; a threonine under a cystine link; a traversal of `[Ala]` with
an invalid link extended by a glycine; a glycine with no link). -/
theorem c5_witness :
    visitResidue AminoAcid.Ala 1 [(1, (3, CrossLink.Cystine 1 2))] =
      ([], some (Error.InvalidCrossLink 1 AminoAcid.Ala (CrossLink.Cystine 1 2))) ∧
    (visitResidue AminoAcid.Thr 1 [(1, (3, CrossLink.Cystine 1 2))]).2 =
      some (Error.InvalidCrossLink 1 AminoAcid.Thr (CrossLink.Cystine 1 2)) ∧
    (Protein.mk Cyclization.None [(1, (3, CrossLink.Cystine 1 2))] 4
        ([AminoAcid.Ala] ++ [AminoAcid.Gly])).visit =
      (Protein.mk Cyclization.None [(1, (3, CrossLink.Cystine 1 2))] 4
        [AminoAcid.Ala]).visit ∧
    (visitResidue AminoAcid.Gly 1 []).2 = none :=
  ⟨c5_invalid_cross_link_errors.1 AminoAcid.Ala 1 [(1, (3, CrossLink.Cystine 1 2))] 3
      (CrossLink.Cystine 1 2) (by decide) (by decide) rfl,
   c5_invalid_cross_link_errors.2.1 1 [(1, (3, CrossLink.Cystine 1 2))] 3
      (CrossLink.Cystine 1 2) rfl (fun a b hh => CrossLink.noConfusion hh),
   c5_invalid_cross_link_errors.2.2.1 Cyclization.None [(1, (3, CrossLink.Cystine 1 2))] 4
      [AminoAcid.Ala] [AminoAcid.Gly]
      (Error.InvalidCrossLink 1 AminoAcid.Ala (CrossLink.Cystine 1 2)) (by decide),
   c5_invalid_cross_link_errors.2.2.2 AminoAcid.Gly 1 [] rfl⟩

/-- C6: on a non-empty sequence, head-to-tail cyclization opens ring marker 0
immediately after the root backbone nitrogen and, on success, ends the
emission by closing marker 0 (joined exactly twice overall) instead of a
terminal oxygen; without cyclization marker 0 is never used and a successful
traversal ends with the terminal single-bonded oxygen.  Registry markers are
assumed nonzero, as guaranteed by allocation starting at 3. -/
theorem c6_cyclization_hooks (p : Protein) (aa : AminoAcid) (rest : List AminoAcid)
    (hseq : p.sequence = aa :: rest)
    (hm : ∀ k mk cl, lookupCL p.crossLinks k = some (mk, cl) → mk ≠ 0) :
    (p.cyclization = Cyclization.HeadToTail →
      ((p.visit).1.take 2 =
        [Instruction.root (.aliphatic .N), Instruction.join .elided 0]) ∧
      ((p.visit).2 = none →
        (p.visit).1.getLast? = some (Instruction.join .elided 0) ∧
        countJoin 0 (p.visit).1 = 2)) ∧
    (p.cyclization = Cyclization.None →
      countJoin 0 (p.visit).1 = 0 ∧
      ((p.visit).2 = none →
        (p.visit).1.getLast? = some (Instruction.extend .single (.aliphatic .O)))) := by
  constructor
  · intro hcyc
    constructor
    · rcases hv : visitResidue aa (pos16 0) p.crossLinks with ⟨ins, e1⟩
      rcases e1 with _ | e1
      · rcases hr : visitRest p.crossLinks rest 1 with ⟨ins2, e2⟩
        rcases e2 with _ | e2 <;>
          simp [Protein.visit, hseq, hv, hr, hcyc, List.take]
      · simp [Protein.visit, hseq, hv, hcyc, List.take]
    · intro hs
      obtain ⟨ins, ins2, hv, hr, hvis⟩ := visit_success_shape p aa rest hseq hs
      refine ⟨?_, countJoin_zero_visit_h2t p aa rest hcyc hseq hm hs⟩
      rw [hvis]
      simp only [hcyc, if_pos]
      exact List.getLast?_concat _
  · intro hcyc
    refine ⟨countJoin_zero_visit_none p hcyc hm, ?_⟩
    intro hs
    obtain ⟨ins, ins2, hv, hr, hvis⟩ := visit_success_shape p aa rest hseq hs
    rw [hvis]
    have hne : (Cyclization.None = Cyclization.HeadToTail) = False := by simp
    simp only [hcyc, hne, if_false]
    exact List.getLast?_concat _

/-- C6 witness: both cyclization modes evaluated on the single-residue
sequence `[Gly]` with an empty registry. -/
theorem c6_witness :
    ((Protein.mk Cyclization.HeadToTail [] 3 [AminoAcid.Gly]).visit.1.take 2 =
      [Instruction.root (.aliphatic .N), Instruction.join .elided 0]) ∧
    ((Protein.mk Cyclization.HeadToTail [] 3 [AminoAcid.Gly]).visit.1.getLast? =
      some (Instruction.join .elided 0)) ∧
    countJoin 0 (Protein.mk Cyclization.HeadToTail [] 3 [AminoAcid.Gly]).visit.1 = 2 ∧
    countJoin 0 (Protein.mk Cyclization.None [] 3 [AminoAcid.Gly]).visit.1 = 0 ∧
    ((Protein.mk Cyclization.None [] 3 [AminoAcid.Gly]).visit.1.getLast? =
      some (Instruction.extend .single (.aliphatic .O))) := by
  have h1 := c6_cyclization_hooks (Protein.mk Cyclization.HeadToTail [] 3 [AminoAcid.Gly])
    AminoAcid.Gly [] rfl (fun k mk cl h => Option.noConfusion h)
  have h2 := c6_cyclization_hooks (Protein.mk Cyclization.None [] 3 [AminoAcid.Gly])
    AminoAcid.Gly [] rfl (fun k mk cl h => Option.noConfusion h)
  have ha := h1.1 rfl
  have hb := ha.2 (by decide)
  have hc := h2.2 rfl
  exact ⟨ha.1, hb.1, hb.2, hc.1, hc.2 (by decide)⟩

/-- C7 counterexample: dehydroalanine is not glycine, yet its recipe emits no
stereo-tagged atom at all, so its alpha carbon is not emitted with a
stereochemical tag. -/
theorem c7_counterexample :
    AminoAcid.Dha ≠ AminoAcid.Gly ∧
    hasConfig (visitResidue AminoAcid.Dha 1 []).1 = false := by
  decide

/-- C7 (amended): with no cross-link registered, every residue recipe except
glycine, dehydroalanine and dehydrobutyrine emits a stereo-tagged atom (the
alpha carbon carries the configuration); the glycine, dehydroalanine and
dehydrobutyrine recipes emit no stereo-tagged atom at all. -/
theorem c7_amended_stereo_tags (aa : AminoAcid) (idx : Nat) :
    hasConfig (visitResidue aa idx []).1 = true ↔
      (aa ≠ AminoAcid.Gly ∧ aa ≠ AminoAcid.Dha ∧ aa ≠ AminoAcid.Dhb) := by
  cases aa <;>
    simp [visitResidue, visitResidueBody, residueArm, hasConfig, instrConfigured,
      atomConfigured, CARBON_TH2, CARBON_TH1, SELENIUM, lookupCL]

/-- C8: the marker counter starts at 3 (`Protein::new`); after `N` successful
registrations the counter is `3 + N` and the registry is exactly
`buildRegistry 3 L`, assigning markers `3, …, 3+N-1` in order, each shared by
the two endpoints of one cross-link; and in a successful traversal whose
endpoint positions all lie within the (u16-addressable) sequence, each such
marker is joined exactly twice. -/
theorem c8_marker_allocation (seq : List AminoAcid) (L : List CrossLink) (pN : Protein)
    (hall : crossLinkAll (Protein.new seq) L = some (pN, none)) :
    (Protein.new seq).crossLinkNum = 3 ∧
    pN.crossLinkNum = 3 + L.length ∧
    pN.crossLinks = buildRegistry 3 L ∧
    (∀ t (ht : t < L.length),
      lookupCL pN.crossLinks (L.get ⟨t, ht⟩).positions.1 =
        some (3 + t, L.get ⟨t, ht⟩) ∧
      lookupCL pN.crossLinks (L.get ⟨t, ht⟩).positions.2 =
        some (3 + t, L.get ⟨t, ht⟩)) ∧
    (seq.length ≤ 65535 →
      (∀ cl ∈ L, 1 ≤ cl.positions.1 ∧ cl.positions.1 ≤ seq.length ∧
        1 ≤ cl.positions.2 ∧ cl.positions.2 ≤ seq.length) →
      (pN.visit).2 = none →
      ∀ m, 3 ≤ m → m < 3 + L.length → countJoin m (pN.visit).1 = 2) := by
  obtain ⟨hcyc, hseq2, hnum, hreg, hnd⟩ := crossLinkAll_ok L (Protein.new seq) pN hall
  have hnd2 : keysNodup pN.crossLinks := hnd (by simp [keysNodup, Protein.new])
  simp only [Protein.new, List.nil_append] at hreg hnum
  have hnd3 : keysNodup (buildRegistry 3 L) := hreg ▸ hnd2
  refine ⟨rfl, by omega, hreg, ?_, ?_⟩
  · intro t ht
    rw [hreg]
    exact ⟨mem_lookupCL _ _ _ hnd3 (buildRegistry_mem_fst L 3 t ht).1,
           mem_lookupCL _ _ _ hnd3 (buildRegistry_mem_fst L 3 t ht).2⟩
  · intro hlen hin hs m hm3 hmN
    have ht : m - 3 < L.length := by omega
    have hmt : m = 3 + (m - 3) := by omega
    have hx := hitInd_buildRegistry L (m - 3) ht hnd3
    have hxy := buildRegistry_pair_ne L 3 (m - 3) ht hnd3
    have hcnt := countJoin_visit pN m (by omega) (by omega) (by omega) hs
    obtain ⟨hp1, hp2, hp3, hp4⟩ := hin (L.get ⟨m - 3, ht⟩) (List.get_mem L _ _)
    rw [hcnt, hreg, hseq2]
    simp only [Protein.new]
    rw [hmt, markerHits_pair (buildRegistry 3 L) (3 + (m - 3))
      (L.get ⟨m - 3, ht⟩).positions.1 (L.get ⟨m - 3, ht⟩).positions.2 hxy hx
      seq.length 0 (by omega)]
    rw [if_pos ⟨by omega, by omega⟩, if_pos ⟨by omega, by omega⟩]

/-- C8 witness: one successful `Cystine(1,2)` registration on `[Cys, Cys]`:
counter 3 before and 4 after, registry `buildRegistry 3 [Cystine 1 2]`, and
marker 3 joined exactly twice by the successful traversal. -/
theorem c8_witness :
    (Protein.new [AminoAcid.Cys, AminoAcid.Cys]).crossLinkNum = 3 ∧
    ({ cyclization := Cyclization.None
       crossLinks := [(1, (3, CrossLink.Cystine 1 2)), (2, (3, CrossLink.Cystine 1 2))]
       crossLinkNum := 4
       sequence := [AminoAcid.Cys, AminoAcid.Cys] } : Protein).crossLinkNum = 3 + 1 ∧
    countJoin 3
      (({ cyclization := Cyclization.None
          crossLinks := [(1, (3, CrossLink.Cystine 1 2)),
                         (2, (3, CrossLink.Cystine 1 2))]
          crossLinkNum := 4
          sequence := [AminoAcid.Cys, AminoAcid.Cys] } : Protein).visit).1 = 2 := by
  have h := c8_marker_allocation [AminoAcid.Cys, AminoAcid.Cys] [CrossLink.Cystine 1 2]
    { cyclization := Cyclization.None
      crossLinks := [(1, (3, CrossLink.Cystine 1 2)), (2, (3, CrossLink.Cystine 1 2))]
      crossLinkNum := 4
      sequence := [AminoAcid.Cys, AminoAcid.Cys] } (by decide)
  exact ⟨h.1, h.2.1, h.2.2.2.2 (by decide) (by decide) (by decide) 3 (by decide) (by decide)⟩

/-- C9: the traversal of an empty residue sequence emits nothing and
succeeds, for every cyclization mode and registry, and the produced SMILES
string is exactly the empty string. -/
theorem c9_empty_sequence (cyc : Cyclization) (cls : Registry) (num : Nat) :
    (Protein.mk cyc cls num []).visit = ([], none) ∧ smiles [] = Except.ok "" :=
  ⟨rfl, rfl⟩

/-- C10: residue positions consulted during a traversal are exactly the
1-based positions `1..len`: registry entries keyed outside that range (0, or
beyond the length) are never looked up, so the whole traversal — errors
included — is unchanged when they are filtered out, and a marker carried by
an out-of-range entry is joined at most once (only by an in-range partner,
of which there is at most one). -/
theorem c10_out_of_range_never_consulted (p : Protein)
    (hlen : p.sequence.length ≤ 65535) :
    p.visit = (Protein.mk p.cyclization
        (p.crossLinks.filter fun e => decide (1 ≤ e.1 ∧ e.1 ≤ p.sequence.length))
        p.crossLinkNum p.sequence).visit ∧
    (∀ (k mk : Nat) (cl : CrossLink),
      lookupCL p.crossLinks k = some (mk, cl) → (k = 0 ∨ p.sequence.length < k) →
      mk ≠ 0 → mk ≠ 1 → mk ≠ 2 →
      markerHits p.crossLinks mk (posFrom p.sequence.length 0) ≤ 1 →
      countJoin mk (p.visit).1 ≤ 1) := by
  constructor
  · exact visit_congr p.cyclization p.crossLinks _ p.crossLinkNum p.sequence
      (fun t ht => by
        rw [pos16_eq t (by omega)]
        exact (lookupCL_filter _ p.crossLinks (t + 1)
          (fun v => by simp only [decide_eq_true_eq]; omega)).symm)
  · intro k mk cl hl hout h0 h1 h2 hmh
    exact le_trans (countJoin_visit_le p mk h0 h1 h2) hmh

/-- C10 witness: a registry entry at position 5 on a two-residue sequence:
the traversal equals the traversal over the filtered registry, and marker 3
(whose other endpoint, position 2, is in range) is joined at most once. -/
theorem c10_witness :
    ({ cyclization := Cyclization.None
       crossLinks := [(5, (3, CrossLink.Cystine 2 5)), (2, (3, CrossLink.Cystine 2 5))]
       crossLinkNum := 4
       sequence := [AminoAcid.Cys, AminoAcid.Cys] } : Protein).visit =
      (Protein.mk Cyclization.None
        ([(5, (3, CrossLink.Cystine 2 5)), (2, (3, CrossLink.Cystine 2 5))].filter
          fun e => decide (1 ≤ e.1 ∧ e.1 ≤
            ([AminoAcid.Cys, AminoAcid.Cys] : List AminoAcid).length))
        4 [AminoAcid.Cys, AminoAcid.Cys]).visit ∧
    countJoin 3
      (({ cyclization := Cyclization.None
          crossLinks := [(5, (3, CrossLink.Cystine 2 5)), (2, (3, CrossLink.Cystine 2 5))]
          crossLinkNum := 4
          sequence := [AminoAcid.Cys, AminoAcid.Cys] } : Protein).visit).1 ≤ 1 := by
  have h := c10_out_of_range_never_consulted
    { cyclization := Cyclization.None
      crossLinks := [(5, (3, CrossLink.Cystine 2 5)), (2, (3, CrossLink.Cystine 2 5))]
      crossLinkNum := 4
      sequence := [AminoAcid.Cys, AminoAcid.Cys] } (by decide)
  exact ⟨h.1, h.2 5 3 (CrossLink.Cystine 2 5) rfl (Or.inr (by decide)) (by omega)
    (by omega) (by omega) (by decide)⟩

end Proteinogenic
